import Mathlib

/-!
The coro_runtime cooperative coroutine executor (`src/main.cpp`).

Shallow embedding of the runtime of `src/main.cpp`:

* `Executor` with its ready queue `m_readyQueue`, `Executor.spawn` and one iteration of the
  loop of `Executor::block`;
* `AsyncVoidTask` (lazy task, `promise_type::return_void`, `operator co_await` with its awaiter);
* `AsyncTimer` (leaf awaitable whose `await_suspend` starts a detached `timer_thread`);
* the demonstration bodies `inner`, `outter`, `anotherCoro` and `main`.

Two interpreters are given. `run` executes bodies that only await fresh temporaries
(`co_await f()`), by recursion on the body. `Obj.run` also executes `co_await t` on a named
task object, which requires a bound on the number of executed statements; `run_agrees` and
`execute_agrees` show that both coincide on the bodies of the first kind.

Modelling conventions.

* A coroutine handle is the index of its frame in the list of allocated frames (frames are
  never destroyed by the source: `AsyncVoidTask` has no destructor).
* A coroutine body is a finite sequence of statements (`Body`); the awaited task of a
  `co_await f()` is a freshly created temporary, as in `co_await inner()`.
* A detached `timer_thread` that has been started and has not yet called `executor.spawn` is
  an entry of `State.workers`. The source does not synchronise the deque: the call of `spawn`
  made by such a thread runs concurrently with the loop of `block` and with the other threads.
  `timer_thread` (`Action.wake`) only describes that call when it overlaps no other access to
  the queue; what happens otherwise is outside this development, and the properties proved
  below are about the executor thread (client spawns and iterations of `block`).
* `State.out` is what is written to `std::cout`; `State.resumed` logs the `coro.resume()` calls
  made by `Executor::block`.
-/

namespace CoroRuntime

/-- A `std::coroutine_handle<>`: the index of the coroutine frame. -/
abbrev Handle := Nat

/-- The fixed texts written to `std::cout` by the demonstration bodies. -/
inductive Msg where
  | innerStarts
  | innerFinished
  | outterStarts
  | nowWeScheduleAnotherTimer
  | outterFinished
  | anotherCoroStarts
  | anotherCoroFinishes
  deriving DecidableEq, Repr

/-- What is left to execute of the body of a coroutine returning `AsyncVoidTask`. -/
inductive Body where
  /-- End of the function body (or `co_return`): `return_void`, then `final_suspend`. -/
  | ret : Body
  /-- The statement `std::cout << m;`. -/
  | say (m : Msg) (k : Body) : Body
  /-- The statement `co_await AsyncTimer{d};`. -/
  | awaitTimer (d : Int) (k : Body) : Body
  /-- The statement `co_await f();` where `f` is a coroutine with body `child`. -/
  | awaitTask (child : Body) (k : Body) : Body
  deriving DecidableEq, Repr

/-- Where a coroutine frame currently stands. -/
inductive Status where
  /-- Suspended at `initial_suspend` (`std::suspend_always`): the body has not started. -/
  | created (body : Body)
  /-- Between a `resume()` and the next suspension. -/
  | running
  /-- Suspended in `co_await AsyncTimer{d}`; `k` is the rest of the body. -/
  | awaitingLeaf (d : Int) (k : Body)
  /-- Suspended in `co_await` of a child task; `k` is the rest of the body. -/
  | awaitingChild (k : Body)
  /-- Suspended at `final_suspend` (`std::suspend_always`): `done()` holds. -/
  | completed
  deriving DecidableEq, Repr

/-- A coroutine frame together with its `promise_type`. -/
structure Frame where
  status : Status
  /-- The field `promise_type::m_parent`; `none` is the null handle. -/
  m_parent : Option Handle
  deriving DecidableEq, Repr

/-- A line written to `std::cout`. -/
inductive Event where
  | say (m : Msg)
  /-- The line "Scheduling an AsyncTimer(..) for d seconds" of the awaiter owned by `h`. -/
  | scheduling (h : Handle) (d : Int)
  /-- The line "AsyncTimer(..) finished after d seconds!" of the awaiter owned by `h`. -/
  | finished (h : Handle) (d : Int)
  deriving DecidableEq, Repr

/-- The `struct Executor`. -/
structure Executor where
  m_readyQueue : List Handle
  deriving DecidableEq, Repr

/-- The whole runtime: the frames, the global `executor`, the started timer threads that have
not yet called `spawn`, the console and the log of resumptions made by `block`. -/
structure State where
  frames : List Frame
  executor : Executor
  workers : List (Handle × Int)
  out : List Event
  resumed : List Handle
  deriving DecidableEq, Repr

/-- The method `void spawn(std::coroutine_handle<> coro) { m_readyQueue.push_back(coro); }` -/
def Executor.spawn (e : Executor) (coro : Handle) : Executor :=
  { m_readyQueue := e.m_readyQueue ++ [coro] }

/-- The call `executor.spawn(coro)` on the global executor. -/
def spawn (coro : Handle) (s : State) : State :=
  { s with executor := s.executor.spawn coro }

/-- Whether the frame is suspended at a point from which it may be resumed
(neither running nor completed). -/
def Status.suspended : Status → Bool
  | .created _ => true
  | .running => false
  | .awaitingLeaf _ _ => true
  | .awaitingChild _ => true
  | .completed => false

/-- The status of a frame that has stopped executing: at a suspension point inside its body or
at the final suspension point. -/
def Status.parked : Status → Bool
  | .awaitingLeaf _ _ => true
  | .awaitingChild _ => true
  | .completed => true
  | _ => false

/-- The result of `coroutine_handle::done()`. -/
def Status.done : Status → Bool
  | .completed => true
  | _ => false

/-- Overwrite the suspension state of frame `h`. -/
def setStatus (h : Handle) (st : Status) (s : State) : State :=
  { s with frames := s.frames.modify (fun f => { f with status := st }) h }

/-- The field `m_parent` of the promise of `h` (null when there is no such frame). -/
def parentOf (h : Handle) (s : State) : Option Handle :=
  (s.frames[h]?).bind Frame.m_parent

/-- The status of frame `h`, if allocated. -/
def statusOf (h : Handle) (s : State) : Option Status :=
  (s.frames[h]?).map Frame.status

/-- The method `promise_type::return_void`: `if (m_parent) { executor.spawn(m_parent); }` -/
def return_void (h : Handle) (s : State) : State :=
  match parentOf h s with
  | some p => spawn p s
  | none => s

/-- The method `AsyncTimer::Awaiter::await_ready`: `return false;` -/
def AsyncTimer.await_ready (_m_duration : Int) : Bool := false

/-- The method `AsyncTimer::Awaiter::await_suspend`: prints the scheduling line and starts the detached
`timer_thread` capturing `awaiter` and the duration. -/
def AsyncTimer.await_suspend (m_duration : Int) (awaiter : Handle) (s : State) : State :=
  { s with out := s.out ++ [Event.scheduling awaiter m_duration],
           workers := s.workers ++ [(awaiter, m_duration)] }

/-- The method `AsyncTimer::Awaiter::await_resume`: prints the completion line. -/
def AsyncTimer.await_resume (m_duration : Int) (awaiter : Handle) (s : State) : State :=
  { s with out := s.out ++ [Event.finished awaiter m_duration] }

/-- The method `AsyncVoidTask::operator co_await()::Awaiter::await_ready`: `return false;` -/
def AsyncVoidTask.await_ready : Bool := false

/-- The method `AsyncVoidTask::operator co_await()::Awaiter::await_suspend`:
`m_task.m_handle.promise().m_parent = parent;` -/
def AsyncVoidTask.await_suspend (m_task : Handle) (parent : Handle) (s : State) : State :=
  { s with frames := s.frames.modify (fun f => { f with m_parent := some parent }) m_task }

/-- Calling a coroutine function with body `body`: the frame is allocated with a null
`m_parent` and suspended at `initial_suspend`. -/
def create (body : Body) (s : State) : State :=
  { s with frames := s.frames ++ [{ status := Status.created body, m_parent := none }] }

/-- Execute the running coroutine `h` from the point `b` of its body up to its next suspension
or its completion.

For `co_await f()`: the task is created, `operator co_await` first calls `m_handle.resume()`
on it (a nested resumption on the same stack), then the awaiter is consulted.
For both awaiters the standard protocol is followed: `await_ready`, and when it is `false` the
coroutine is suspended and `await_suspend` is called with its handle. -/
def run : Body → Handle → State → State
  | .ret, h, s => setStatus h Status.completed (return_void h s)
  | .say m k, h, s => run k h { s with out := s.out ++ [Event.say m] }
  | .awaitTimer d k, h, s =>
      if AsyncTimer.await_ready d then
        run k h (AsyncTimer.await_resume d h s)
      else
        AsyncTimer.await_suspend d h (setStatus h (Status.awaitingLeaf d k) s)
  | .awaitTask child k, h, s =>
      let c : Handle := s.frames.length
      let s1 := run child c (setStatus c Status.running (create child s))
      if AsyncVoidTask.await_ready then
        run k h s1
      else
        AsyncVoidTask.await_suspend c h (setStatus h (Status.awaitingChild k) s1)

/-- The call `coro.resume()`. Resuming a coroutine that is not suspended, or that is suspended
at its final suspension point, is undefined: `none`. -/
def resume (coro : Handle) (s : State) : Option State :=
  match statusOf coro s with
  | some (Status.created body) => some (run body coro (setStatus coro Status.running s))
  | some (Status.awaitingLeaf d k) =>
      some (run k coro (AsyncTimer.await_resume d coro (setStatus coro Status.running s)))
  | some (Status.awaitingChild k) => some (run k coro (setStatus coro Status.running s))
  | some Status.running => none
  | some Status.completed => none
  | none => none

/-- One iteration of the `while (true)` loop of `Executor::block`: when the queue is not
empty, take the front handle, pop it and resume it; otherwise do nothing. -/
def Executor.blockIter (s : State) : Option State :=
  match s.executor.m_readyQueue with
  | [] => some s
  | coro :: rest =>
      resume coro { s with executor := { m_readyQueue := rest }, resumed := s.resumed ++ [coro] }

/-- The first `n` iterations of the loop of `Executor::block` (the loop itself never ends). -/
def Executor.block : Nat → State → Option State
  | 0, s => some s
  | n + 1, s => (Executor.blockIter s).bind (Executor.block n)

/-- The end of the `i`-th pending `timer_thread`: its sleep is over and it calls
`executor.spawn(awaiter)`. The effect given here is that of a call which overlaps no other
access to the queue; the source does nothing to ensure this. -/
def timer_thread (i : Nat) (s : State) : Option State :=
  match s.workers[i]? with
  | some w => some (spawn w.1 { s with workers := s.workers.eraseIdx i })
  | none => none

/-- The client call `executor.spawn(f())` for a coroutine `f` with body `body`. -/
def spawnTask (body : Body) (s : State) : State :=
  spawn s.frames.length (create body s)

/-- The events of the runtime. -/
inductive Action where
  /-- A client creates a root task and spawns it. -/
  | spawnRoot (body : Body)
  /-- The executor thread performs one iteration of `block`. -/
  | tick
  /-- The `i`-th pending timer thread finishes, overlapping no other access to the queue. -/
  | wake (i : Nat)
  deriving DecidableEq, Repr

/-- The effect of one event; `none` when the event cannot happen or is undefined. -/
def step : Action → State → Option State
  | .spawnRoot body, s => some (spawnTask body s)
  | .tick, s => Executor.blockIter s
  | .wake i, s => timer_thread i s

/-- The effect of a sequence of events. -/
def execute : List Action → State → Option State
  | [], s => some s
  | a :: as, s => (step a s).bind (execute as)

/-- The runtime at program start: no frame, empty queue, no thread. -/
def State.init : State :=
  { frames := [], executor := { m_readyQueue := [] }, workers := [], out := [], resumed := [] }

/-- The body of `inner`. -/
def inner : Body :=
  .say .innerStarts (.awaitTimer 3 (.say .innerFinished .ret))

/-- The body of `outter`. -/
def outter : Body :=
  .say .outterStarts (.awaitTask inner
    (.say .nowWeScheduleAnotherTimer (.awaitTimer 2
      (.say .nowWeScheduleAnotherTimer (.awaitTimer 4
        (.say .nowWeScheduleAnotherTimer (.awaitTimer 1
          (.say .outterFinished .ret))))))))

/-- The body of `anotherCoro`. -/
def anotherCoro : Body :=
  .say .anotherCoroStarts (.awaitTimer 7 (.say .anotherCoroFinishes .ret))

/-- The state reached by `main` just before `executor.block()`:
`executor.spawn(outter()); executor.spawn(anotherCoro());`. The thread `timerThread` of `main`,
which only prints a clock, is left out. -/
def main : State :=
  spawnTask anotherCoro (spawnTask outter State.init)

/-! ## Notions used to state the properties -/

/-- Whether frame `f` is an unfinished task whose recorded parent is `x`: its completion will
spawn `x`. -/
def owes (x : Handle) (f : Frame) : Nat :=
  if f.status.done = false ∧ f.m_parent = some x then 1 else 0

/-- The number of unfinished tasks whose recorded parent is `x`. -/
def waitingOn (x : Handle) : List Frame → Nat
  | [] => 0
  | f :: fs => owes x f + waitingOn x fs

/-- The number of pending resumptions of `x`: its occurrences in the ready queue, the pending
timer threads holding it, and the unfinished children that will spawn it on completion. -/
def pending (s : State) (x : Handle) : Nat :=
  s.executor.m_readyQueue.count x + (s.workers.map Prod.fst).count x + waitingOn x s.frames

/-- Frame `x` exists and is suspended (neither running nor completed). -/
def isSuspended (s : State) (x : Handle) : Bool :=
  match statusOf x s with
  | some st => st.suspended
  | none => false

/-- The scheduling invariant: every handle has at most one pending resumption, and a handle
with a pending resumption is suspended. -/
def Inv (s : State) : Prop :=
  ∀ x, pending s x ≤ 1 ∧ (0 < pending s x → isSuspended s x = true)

/-- A coroutine `A` whose body is `co_await B();` for a coroutine `B` with an empty body
(no suspension point). -/
def awaitsEmptyChild : Body :=
  .awaitTask .ret .ret

/-- The state after `executor.spawn(A())` for `A = awaitsEmptyChild` and one iteration of
`block`: `B` (handle `1`) is completed, `A` (handle `0`) is suspended in its await and recorded
as the parent of `B`, the ready queue is empty and no thread is pending. -/
def stuck : State :=
  { frames := [⟨Status.awaitingChild .ret, none⟩, ⟨Status.completed, some 0⟩],
    executor := { m_readyQueue := [] }, workers := [], out := [], resumed := [0] }

/-! ## Task objects that are awaited by name -/

/-- What is left to execute of a coroutine body in which `co_await` may also be applied to a
named task object (`AsyncVoidTask t = f(); ... co_await t;`), as `operator co_await` is an
ordinary member function of `AsyncVoidTask`. -/
inductive ObjBody where
  /-- End of the function body: `return_void`, then `final_suspend`. -/
  | ret : ObjBody
  /-- The statement `std::cout << m;`. -/
  | say (m : Msg) (k : ObjBody) : ObjBody
  /-- The statement `co_await AsyncTimer{d};`. -/
  | awaitTimer (d : Int) (k : ObjBody) : ObjBody
  /-- The statement `co_await f();` where `f` is a coroutine with body `child`. -/
  | awaitTask (child : ObjBody) (k : ObjBody) : ObjBody
  /-- The statement `co_await t;` where `t` is the task object whose handle is `t`. -/
  | awaitObject (t : Handle) (k : ObjBody) : ObjBody
  deriving DecidableEq, Repr

/-- Where a coroutine frame stands (bodies of `ObjBody`). -/
inductive ObjStatus where
  | created (body : ObjBody)
  | running
  | awaitingLeaf (d : Int) (k : ObjBody)
  | awaitingChild (k : ObjBody)
  | completed
  deriving DecidableEq, Repr

/-- A coroutine frame together with its `promise_type` (bodies of `ObjBody`). -/
structure ObjFrame where
  status : ObjStatus
  m_parent : Option Handle
  deriving DecidableEq, Repr

/-- The runtime (bodies of `ObjBody`). -/
structure ObjState where
  frames : List ObjFrame
  executor : Executor
  workers : List (Handle × Int)
  out : List Event
  resumed : List Handle
  deriving DecidableEq, Repr

/-- The result of executing code of the runtime. -/
inductive Outcome where
  /-- The code returned, leaving the runtime in state `s`. -/
  | ok (s : ObjState)
  /-- The call `resume()` was made on `coro`, which is not suspended or is suspended at its
  final suspension point: undefined behaviour. -/
  | undefinedResume (coro : Handle)
  /-- The bound on the number of executed statements was reached. -/
  | outOfFuel
  deriving DecidableEq, Repr

namespace Obj

/-- The call `executor.spawn(coro)` on the global executor. -/
def spawn (coro : Handle) (s : ObjState) : ObjState :=
  { s with executor := s.executor.spawn coro }

/-- Overwrite the suspension state of frame `h`. -/
def setStatus (h : Handle) (st : ObjStatus) (s : ObjState) : ObjState :=
  { s with frames := s.frames.modify (fun f => { f with status := st }) h }

/-- The field `m_parent` of the promise of `h`. -/
def parentOf (h : Handle) (s : ObjState) : Option Handle :=
  (s.frames[h]?).bind ObjFrame.m_parent

/-- The status of frame `h`, if allocated. -/
def statusOf (h : Handle) (s : ObjState) : Option ObjStatus :=
  (s.frames[h]?).map ObjFrame.status

/-- The method `promise_type::return_void`: `if (m_parent) { executor.spawn(m_parent); }` -/
def return_void (h : Handle) (s : ObjState) : ObjState :=
  match parentOf h s with
  | some p => spawn p s
  | none => s

/-- The method `AsyncTimer::Awaiter::await_suspend`. -/
def timer_await_suspend (m_duration : Int) (awaiter : Handle) (s : ObjState) : ObjState :=
  { s with out := s.out ++ [Event.scheduling awaiter m_duration],
           workers := s.workers ++ [(awaiter, m_duration)] }

/-- The method `AsyncTimer::Awaiter::await_resume`. -/
def timer_await_resume (m_duration : Int) (awaiter : Handle) (s : ObjState) : ObjState :=
  { s with out := s.out ++ [Event.finished awaiter m_duration] }

/-- The method `await_suspend` of the awaiter of `AsyncVoidTask`:
`m_task.m_handle.promise().m_parent = parent;` -/
def await_suspend (m_task : Handle) (parent : Handle) (s : ObjState) : ObjState :=
  { s with frames := s.frames.modify (fun f => { f with m_parent := some parent }) m_task }

/-- Calling a coroutine function with body `body`: a new frame with a null `m_parent`,
suspended at `initial_suspend`. -/
def create (body : ObjBody) (s : ObjState) : ObjState :=
  { s with frames := s.frames ++ [{ status := ObjStatus.created body, m_parent := none }] }

/-- The call `coro.resume()`, where `exec b h s` executes the body `b` of `h` from state `s`. -/
def resumeWith (exec : ObjBody → Handle → ObjState → Outcome) (coro : Handle) (s : ObjState) :
    Outcome :=
  match statusOf coro s with
  | some (ObjStatus.created body) => exec body coro (setStatus coro ObjStatus.running s)
  | some (ObjStatus.awaitingLeaf d k) =>
      exec k coro (timer_await_resume d coro (setStatus coro ObjStatus.running s))
  | some (ObjStatus.awaitingChild k) => exec k coro (setStatus coro ObjStatus.running s)
  | some ObjStatus.running => Outcome.undefinedResume coro
  | some ObjStatus.completed => Outcome.undefinedResume coro
  | none => Outcome.undefinedResume coro

/-- The expression `co_await t` evaluated by the running coroutine `h` with rest of body `k`,
where `resumed` is the outcome of the call `m_handle.resume()` that `operator co_await` makes
first: then `await_ready` is `false`, `h` is suspended and `await_suspend` records `h` as the
parent of `t`. -/
def awaitAfter (resumed : Outcome) (t : Handle) (k : ObjBody) (h : Handle) : Outcome :=
  match resumed with
  | Outcome.ok s1 => Outcome.ok (await_suspend t h (setStatus h (ObjStatus.awaitingChild k) s1))
  | o => o

/-- Execute the running coroutine `h` from the point `b` of its body up to its next suspension
or its completion; the first argument bounds the number of statements executed, nested
resumptions included. Both awaiters answer `false` to `await_ready`, so every `co_await`
suspends `h` and calls `await_suspend`. -/
def run : Nat → ObjBody → Handle → ObjState → Outcome
  | 0, _, _, _ => Outcome.outOfFuel
  | _ + 1, .ret, h, s => Outcome.ok (setStatus h ObjStatus.completed (return_void h s))
  | n + 1, .say m k, h, s => run n k h { s with out := s.out ++ [Event.say m] }
  | _ + 1, .awaitTimer d k, h, s =>
      Outcome.ok (timer_await_suspend d h (setStatus h (ObjStatus.awaitingLeaf d k) s))
  | n + 1, .awaitTask child k, h, s =>
      awaitAfter (resumeWith (run n) s.frames.length (create child s)) s.frames.length k h
  | n + 1, .awaitObject t k, h, s =>
      awaitAfter (resumeWith (run n) t s) t k h

/-- The call `coro.resume()`. -/
def resume (n : Nat) (coro : Handle) (s : ObjState) : Outcome :=
  resumeWith (run n) coro s

/-- One iteration of the loop of `Executor::block`. -/
def blockIter (n : Nat) (s : ObjState) : Outcome :=
  match s.executor.m_readyQueue with
  | [] => Outcome.ok s
  | coro :: rest =>
      resume n coro { s with executor := { m_readyQueue := rest }, resumed := s.resumed ++ [coro] }

/-- The actions of a client and of the executor thread. -/
inductive Action where
  /-- A client creates a task object and keeps it: `AsyncVoidTask t = f();`. -/
  | createTask (body : ObjBody)
  /-- A client creates a root task and spawns it: `executor.spawn(f());`. -/
  | spawnRoot (body : ObjBody)
  /-- The executor thread performs one iteration of `block`. -/
  | tick
  deriving DecidableEq, Repr

/-- The effect of one action. -/
def step (n : Nat) : Action → ObjState → Outcome
  | .createTask body, s => Outcome.ok (create body s)
  | .spawnRoot body, s => Outcome.ok (spawn s.frames.length (create body s))
  | .tick, s => blockIter n s

/-- The effect of a sequence of actions. -/
def execute (n : Nat) : List Action → ObjState → Outcome
  | [], s => Outcome.ok s
  | a :: as, s =>
      match step n a s with
      | Outcome.ok s1 => execute n as s1
      | o => o

/-- The runtime at program start. -/
def init : ObjState :=
  { frames := [], executor := { m_readyQueue := [] }, workers := [], out := [], resumed := [] }

end Obj

/-- A body that only awaits fresh temporaries, as a body of `ObjBody`. -/
def Body.toObj : Body → ObjBody
  | .ret => .ret
  | .say m k => .say m k.toObj
  | .awaitTimer d k => .awaitTimer d k.toObj
  | .awaitTask child k => .awaitTask child.toObj k.toObj

/-- The same status, over `ObjBody`. -/
def Status.toObj : Status → ObjStatus
  | .created body => .created body.toObj
  | .running => .running
  | .awaitingLeaf d k => .awaitingLeaf d k.toObj
  | .awaitingChild k => .awaitingChild k.toObj
  | .completed => .completed

/-- The same frame, over `ObjBody`. -/
def Frame.toObj (f : Frame) : ObjFrame :=
  { status := f.status.toObj, m_parent := f.m_parent }

/-- The same state of the runtime, over `ObjBody`. -/
def State.toObj (s : State) : ObjState :=
  { frames := s.frames.map Frame.toObj, executor := s.executor, workers := s.workers,
    out := s.out, resumed := s.resumed }

@[simp] theorem statusOf_setStatus (x h : Nat) (st : Status) (s : State) :
    statusOf x (setStatus h st s) =
      if h = x then (statusOf x s).map (fun _ => st) else statusOf x s := by
  unfold statusOf setStatus
  simp only [List.getElem?_modify]
  cases s.frames[x]? <;> by_cases hx : h = x <;> simp [hx]

@[simp] theorem parentOf_setStatus (x h : Nat) (st : Status) (s : State) :
    parentOf x (setStatus h st s) = parentOf x s := by
  unfold parentOf setStatus
  simp only [List.getElem?_modify]
  cases s.frames[x]? <;> by_cases hx : h = x <;> simp [hx]

@[simp] theorem statusOf_await_suspend (x c p : Nat) (s : State) :
    statusOf x (AsyncVoidTask.await_suspend c p s) = statusOf x s := by
  unfold statusOf AsyncVoidTask.await_suspend
  simp only [List.getElem?_modify]
  cases s.frames[x]? <;> by_cases hx : c = x <;> simp [hx]

theorem parentOf_await_suspend (x c p : Nat) (s : State) :
    parentOf x (AsyncVoidTask.await_suspend c p s) =
      if c = x then (s.frames[x]?).map (fun _ => p) else parentOf x s := by
  unfold parentOf AsyncVoidTask.await_suspend
  simp only [List.getElem?_modify]
  cases s.frames[x]? <;> by_cases hx : c = x <;> simp [hx]

@[simp] theorem frames_length_setStatus (h : Nat) (st : Status) (s : State) :
    (setStatus h st s).frames.length = s.frames.length := by
  simp [setStatus]

@[simp] theorem frames_length_await_suspend (c p : Nat) (s : State) :
    (AsyncVoidTask.await_suspend c p s).frames.length = s.frames.length := by
  simp [AsyncVoidTask.await_suspend]

@[simp] theorem frames_length_create (b : Body) (s : State) :
    (create b s).frames.length = s.frames.length + 1 := by
  simp [create]

theorem statusOf_eq_none_iff (x : Nat) (s : State) :
    statusOf x s = none ↔ s.frames.length ≤ x := by
  simp [statusOf]

theorem statusOf_isSome_iff (x : Nat) (s : State) :
    (statusOf x s).isSome ↔ x < s.frames.length := by
  unfold statusOf
  rcases h : s.frames[x]? with _ | f
  · simpa using h
  · have := (List.getElem?_eq_some_iff.mp h).1
    simpa using this

theorem statusOf_create_of_lt (b : Body) (s : State) (x : Nat) (hx : x < s.frames.length) :
    statusOf x (create b s) = statusOf x s := by
  simp [statusOf, create, List.getElem?_append_left hx]

theorem statusOf_create_new (b : Body) (s : State) :
    statusOf s.frames.length (create b s) = some (Status.created b) := by
  simp [statusOf, create]

theorem parentOf_create_of_lt (b : Body) (s : State) (x : Nat) (hx : x < s.frames.length) :
    parentOf x (create b s) = parentOf x s := by
  simp [parentOf, create, List.getElem?_append_left hx]

theorem parentOf_create_new (b : Body) (s : State) :
    parentOf s.frames.length (create b s) = none := by
  simp [parentOf, create]

/-! ## Frame properties of `run` -/

theorem run_awaitTimer (d : Int) (k : Body) (h : Nat) (s : State) :
    run (.awaitTimer d k) h s =
      AsyncTimer.await_suspend d h (setStatus h (Status.awaitingLeaf d k) s) := by
  simp [run, AsyncTimer.await_ready]

theorem run_awaitTask (c k : Body) (h : Nat) (s : State) :
    run (.awaitTask c k) h s =
      AsyncVoidTask.await_suspend s.frames.length h
        (setStatus h (Status.awaitingChild k)
          (run c s.frames.length (setStatus s.frames.length Status.running (create c s)))) := by
  simp [run, AsyncVoidTask.await_ready]

theorem run_ret (h : Nat) (s : State) :
    run .ret h s = setStatus h Status.completed (return_void h s) := rfl

@[simp] theorem frames_return_void (h : Nat) (s : State) :
    (return_void h s).frames = s.frames := by
  unfold return_void; split <;> rfl

@[simp] theorem workers_return_void (h : Nat) (s : State) :
    (return_void h s).workers = s.workers := by
  unfold return_void; split <;> rfl

@[simp] theorem statusOf_return_void (x h : Nat) (s : State) :
    statusOf x (return_void h s) = statusOf x s := by
  simp [statusOf]

@[simp] theorem parentOf_return_void (x h : Nat) (s : State) :
    parentOf x (return_void h s) = parentOf x s := by
  simp [parentOf]

theorem frames_setStatus_ne (h : Nat) (st : Status) (s : State) (j : Nat) (hne : h ≠ j) :
    (setStatus h st s).frames[j]? = s.frames[j]? := by
  simp [setStatus, List.getElem?_modify_ne _ _ hne]

theorem frames_await_suspend_ne (c p : Nat) (s : State) (j : Nat) (hne : c ≠ j) :
    (AsyncVoidTask.await_suspend c p s).frames[j]? = s.frames[j]? := by
  simp [AsyncVoidTask.await_suspend, List.getElem?_modify_ne _ _ hne]

theorem run_frames_length_le (b : Body) : ∀ (h : Nat) (s : State),
    s.frames.length ≤ (run b h s).frames.length := by
  induction b with
  | ret => intro h s; simp [run_ret]
  | say m k ih => intro h s; exact ih h { s with out := s.out ++ [Event.say m] }
  | awaitTimer d k _ => intro h s; simp [run_awaitTimer, AsyncTimer.await_suspend]
  | awaitTask c k ihc _ =>
    intro h s
    rw [run_awaitTask]
    have := ihc s.frames.length (setStatus s.frames.length Status.running (create c s))
    simp at this ⊢
    omega

/-- Running `h` leaves every other already allocated frame untouched. -/
theorem run_frames_other (b : Body) : ∀ (h : Nat) (s : State) (j : Nat),
    j < s.frames.length → j ≠ h → (run b h s).frames[j]? = s.frames[j]? := by
  induction b with
  | ret =>
    intro h s j _ hne
    simp [run_ret, setStatus, List.getElem?_modify_ne _ _ (Ne.symm hne)]
  | say m k ih => intro h s j hj hne; exact ih h _ j hj hne
  | awaitTimer d k _ =>
    intro h s j _ hne
    simp [run_awaitTimer, AsyncTimer.await_suspend, setStatus,
      List.getElem?_modify_ne _ _ (Ne.symm hne)]
  | awaitTask c k ihc _ =>
    intro h s j hj hne
    rw [run_awaitTask]
    have hjc : j ≠ s.frames.length := by omega
    have := ihc s.frames.length (setStatus s.frames.length Status.running (create c s)) j
      (by simp; omega) hjc
    rw [frames_await_suspend_ne _ _ _ _ (Ne.symm hjc), frames_setStatus_ne _ _ _ _ (Ne.symm hne),
      this, frames_setStatus_ne _ _ _ _ (Ne.symm hjc)]
    simp [create, List.getElem?_append_left hj]

/-- Running `h` never changes the recorded parent of an already allocated frame. -/
theorem run_parentOf (b : Body) : ∀ (h : Nat) (s : State) (j : Nat),
    j < s.frames.length → parentOf j (run b h s) = parentOf j s := by
  induction b with
  | ret => intro h s j _; simp [run_ret]
  | say m k ih => intro h s j hj; exact ih h _ j hj
  | awaitTimer d k _ =>
    intro h s j _
    rw [run_awaitTimer]
    show parentOf j (setStatus h _ s) = _
    simp
  | awaitTask c k ihc _ =>
    intro h s j hj
    rw [run_awaitTask, parentOf_await_suspend]
    have hjc : s.frames.length ≠ j := by omega
    rw [if_neg hjc, parentOf_setStatus,
      ihc _ _ j (by simp; omega), parentOf_setStatus, parentOf_create_of_lt _ _ _ hj]

theorem statusOf_run_other (b : Body) (h : Nat) (s : State) (j : Nat)
    (hj : j < s.frames.length) (hne : j ≠ h) : statusOf j (run b h s) = statusOf j s := by
  unfold statusOf; rw [run_frames_other b h s j hj hne]

/-- After `run`, the coroutine stands at a suspension point of its body or is completed. -/
theorem run_parked (b : Body) : ∀ (h : Nat) (s : State), h < s.frames.length →
    ∃ st, statusOf h (run b h s) = some st ∧ st.parked = true := by
  induction b with
  | ret =>
    intro h s hh
    obtain ⟨st0, h0⟩ := Option.isSome_iff_exists.mp ((statusOf_isSome_iff h s).mpr hh)
    exact ⟨Status.completed, by simp [run_ret, h0], rfl⟩
  | say m k ih => intro h s hh; exact ih h _ hh
  | awaitTimer d k _ =>
    intro h s hh
    obtain ⟨st0, h0⟩ := Option.isSome_iff_exists.mp ((statusOf_isSome_iff h s).mpr hh)
    refine ⟨Status.awaitingLeaf d k, ?_, rfl⟩
    rw [run_awaitTimer]
    show statusOf h (setStatus h _ s) = _
    simp [h0]
  | awaitTask c k ihc _ =>
    intro h s hh
    refine ⟨Status.awaitingChild k, ?_, rfl⟩
    rw [run_awaitTask, statusOf_await_suspend, statusOf_setStatus, if_pos rfl,
      statusOf_run_other _ _ _ _ (by simp; omega) (by omega), statusOf_setStatus,
      if_neg (by omega), statusOf_create_of_lt _ _ _ hh]
    obtain ⟨st0, h0⟩ := Option.isSome_iff_exists.mp ((statusOf_isSome_iff h s).mpr hh)
    simp [h0]

/-! ## Counting pending resumptions -/

theorem owes_le_one (x : Nat) (f : Frame) : owes x f ≤ 1 := by
  unfold owes; split <;> omega

theorem Inv_resumed {s : State} (hInv : Inv s) (r : List Nat) : Inv { s with resumed := r } :=
  hInv

/-- The function `run` only appends to the ready queue, and appends at most the recorded parent. -/
theorem run_queue (b : Body) : ∀ (h : Nat) (s : State),
    ∃ l, (run b h s).executor.m_readyQueue = s.executor.m_readyQueue ++ l ∧
      (run b h s).resumed = s.resumed := by
  induction b with
  | ret =>
    intro h s
    rw [run_ret]
    unfold return_void
    split
    · exact ⟨[_], rfl, rfl⟩
    · exact ⟨[], by simp [setStatus], rfl⟩
  | say m k ih => intro h s; exact ih h { s with out := s.out ++ [Event.say m] }
  | awaitTimer d k _ => intro h s; exact ⟨[], by simp [run_awaitTimer, AsyncTimer.await_suspend, setStatus], by simp [run_awaitTimer, AsyncTimer.await_suspend, setStatus]⟩
  | awaitTask c k ihc _ =>
    intro h s
    obtain ⟨l, hl, hr⟩ := ihc s.frames.length (setStatus s.frames.length Status.running (create c s))
    rw [run_awaitTask]
    exact ⟨l, hl, hr⟩

theorem resume_queue {h : Nat} {s s1 : State} (hres : resume h s = some s1) :
    ∃ l, s1.executor.m_readyQueue = s.executor.m_readyQueue ++ l ∧ s1.resumed = s.resumed := by
  unfold resume at hres
  split at hres
  · simp only [Option.some.injEq] at hres; subst hres; exact run_queue _ _ _
  · simp only [Option.some.injEq] at hres; subst hres; exact run_queue _ _ _
  · simp only [Option.some.injEq] at hres; subst hres; exact run_queue _ _ _
  · simp at hres
  · simp at hres
  · simp at hres

theorem spawn_foldl_queue (hs : List Handle) : ∀ (s : State),
    (hs.foldl (fun t h => spawn h t) s).executor.m_readyQueue = s.executor.m_readyQueue ++ hs ∧
    (hs.foldl (fun t h => spawn h t) s).resumed = s.resumed ∧
    (hs.foldl (fun t h => spawn h t) s).frames = s.frames := by
  induction hs with
  | nil => intro s; simp
  | cons h rest ih =>
    intro s
    obtain ⟨h1, h2, h3⟩ := ih (spawn h s)
    simp only [List.foldl_cons, h1, h2, h3]
    simp [spawn, Executor.spawn]

theorem block_fifo_aux (k : Nat) : ∀ (hs l0 : List Handle) (s s1 : State),
    k ≤ hs.length → s.executor.m_readyQueue = hs ++ l0 → Executor.block k s = some s1 →
    s1.resumed = s.resumed ++ hs.take k ∧
      ∃ later, s1.executor.m_readyQueue = hs.drop k ++ l0 ++ later := by
  induction k with
  | zero =>
    intro hs l0 s s1 _ hq hb
    simp only [Executor.block, Option.some.injEq] at hb
    subst hb
    exact ⟨by simp, [], by simp [hq]⟩
  | succ n ih =>
    intro hs l0 s s1 hk hq hb
    cases hs with
    | nil => simp at hk
    | cons h rest =>
      simp only [Executor.block] at hb
      rcases hit : Executor.blockIter s with _ | s2
      · simp [hit] at hb
      · rw [hit] at hb
        simp only [Option.some_bind] at hb
        unfold Executor.blockIter at hit
        rw [hq] at hit
        simp only [List.cons_append] at hit
        obtain ⟨l, hl, hr⟩ := resume_queue hit
        simp only at hl hr
        have hk1 : n ≤ rest.length := by simpa using hk
        obtain ⟨h1, later, h2⟩ := ih rest (l0 ++ l) s2 s1 hk1 (by rw [hl, List.append_assoc]) hb
        refine ⟨by rw [h1, hr]; simp, l ++ later, ?_⟩
        rw [h2]; simp

/-- C1 (FIFO). Starting from a state with an empty ready queue, after `spawn h1`, ...,
`spawn hn` in that order, the first `k ≤ n` iterations of `block` (when defined) have popped
and resumed exactly `h1, ..., hk`, in this order, and the queue holds `h(k+1), ..., hn`
followed by the handles spawned meanwhile by the resumed coroutines. -/
theorem block_fifo (s : State) (hs : List Handle) (k : Nat) (s1 : State)
    (hq : s.executor.m_readyQueue = []) (hk : k ≤ hs.length)
    (hb : Executor.block k (hs.foldl (fun t h => spawn h t) s) = some s1) :
    (hs.foldl (fun t h => spawn h t) s).executor.m_readyQueue = hs ∧
    s1.resumed = s.resumed ++ hs.take k ∧
      ∃ later, s1.executor.m_readyQueue = hs.drop k ++ later := by
  obtain ⟨e1, e2, -⟩ := spawn_foldl_queue hs s
  rw [hq, List.nil_append] at e1
  obtain ⟨h1, later, h2⟩ := block_fifo_aux k hs [] _ s1 hk (by rw [e1]; simp) hb
  exact ⟨e1, by rw [h1, e2], later, by simpa using h2⟩

theorem block_fifo_witness :
    (create .ret (create .ret State.init)).executor.m_readyQueue = [] ∧
    Executor.block 2 ([1, 0].foldl (fun t h => spawn h t) (create .ret (create .ret State.init)))
      = some ⟨[⟨.completed, none⟩, ⟨.completed, none⟩], ⟨[]⟩, [], [], [1, 0]⟩ ∧
    (([1, 0].foldl (fun t h => spawn h t)
        (create .ret (create .ret State.init))).executor.m_readyQueue = [1, 0] ∧
      (⟨[⟨.completed, none⟩, ⟨.completed, none⟩], ⟨[]⟩, [], [], [1, 0]⟩ : State).resumed
        = (create .ret (create .ret State.init)).resumed ++ [1, 0].take 2 ∧
      ∃ later, (⟨[⟨.completed, none⟩, ⟨.completed, none⟩], ⟨[]⟩, [], [], [1, 0]⟩ :
        State).executor.m_readyQueue = [1, 0].drop 2 ++ later) :=
  ⟨rfl, by decide,
    block_fifo (create .ret (create .ret State.init)) [1, 0] 2 _ rfl (by decide) (by decide)⟩

/-! ## The operations one by one -/

/-- C5 (`Executor::spawn`). `spawn h` leaves the ready queue equal to the old queue with `h`
appended at the tail, and changes nothing else: no frame changes state, no coroutine is
resumed, no thread is started, nothing is printed. -/
theorem spawn_appends (h : Handle) (e : Executor) (s : State) :
    (e.spawn h).m_readyQueue = e.m_readyQueue ++ [h] ∧
    (spawn h s).executor.m_readyQueue = s.executor.m_readyQueue ++ [h] ∧
    (spawn h s).frames = s.frames ∧
    (spawn h s).resumed = s.resumed ∧
    (spawn h s).workers = s.workers ∧
    (spawn h s).out = s.out ∧
    ∀ x, statusOf x (spawn h s) = statusOf x s :=
  ⟨rfl, rfl, rfl, rfl, rfl, rfl, fun _ => rfl⟩

/-- C3 (`promise_type::return_void`). When a parent `p` is recorded in `m_parent`, the ready
queue afterwards is the old queue with `p` appended once at the tail, and `p` is not resumed
inline: no frame changes and no resumption is logged. When no parent is recorded, the state
is unchanged. -/
theorem return_void_post (h : Handle) (s : State) :
    (∀ p, parentOf h s = some p →
      (return_void h s).executor.m_readyQueue = s.executor.m_readyQueue ++ [p] ∧
      (return_void h s).frames = s.frames ∧
      (return_void h s).resumed = s.resumed ∧
      (return_void h s).workers = s.workers ∧
      (return_void h s).out = s.out) ∧
    (parentOf h s = none → return_void h s = s) := by
  constructor
  · intro p hp
    simp [return_void, hp, spawn, Executor.spawn]
  · intro hp
    simp [return_void, hp]

theorem return_void_post_witness :
    parentOf 1 ⟨[⟨.awaitingChild .ret, none⟩, ⟨.running, some 0⟩], ⟨[7]⟩, [], [], []⟩ = some 0 ∧
    (return_void 1 ⟨[⟨.awaitingChild .ret, none⟩, ⟨.running, some 0⟩], ⟨[7]⟩, [], [], []⟩
      ).executor.m_readyQueue = [7, 0] ∧
    parentOf 0 ⟨[⟨.running, none⟩], ⟨[7]⟩, [], [], []⟩ = none ∧
    return_void 0 ⟨[⟨.running, none⟩], ⟨[7]⟩, [], [], []⟩ = ⟨[⟨.running, none⟩], ⟨[7]⟩, [], [], []⟩ :=
  ⟨rfl,
   ((return_void_post 1
      ⟨[⟨.awaitingChild .ret, none⟩, ⟨.running, some 0⟩], ⟨[7]⟩, [], [], []⟩).1 0 rfl).1,
   rfl,
   (return_void_post 0 ⟨[⟨.running, none⟩], ⟨[7]⟩, [], [], []⟩).2 rfl⟩

/-- C8 (leaf never synchronous). For every duration `d` (zero and negative included) the
awaiter of `AsyncTimer` answers `false` to `await_ready`; hence a coroutine `h` executing
`co_await AsyncTimer{d}` stops there, suspended in this await: only the scheduling line is
printed, one timer thread is started, the queue is untouched, and the await completes (its
completion line is printed and the rest `k` of the body runs) only in a later resumption. -/
theorem leaf_never_synchronous (d : Int) (k : Body) (h : Handle) (s : State)
    (hh : h < s.frames.length) :
    AsyncTimer.await_ready d = false ∧
    statusOf h (run (.awaitTimer d k) h s) = some (Status.awaitingLeaf d k) ∧
    (run (.awaitTimer d k) h s).out = s.out ++ [Event.scheduling h d] ∧
    (run (.awaitTimer d k) h s).workers = s.workers ++ [(h, d)] ∧
    (run (.awaitTimer d k) h s).executor = s.executor ∧
    (run (.awaitTimer d k) h s).resumed = s.resumed ∧
    resume h (run (.awaitTimer d k) h s) =
      some (run k h (AsyncTimer.await_resume d h
        (setStatus h Status.running (run (.awaitTimer d k) h s)))) := by
  obtain ⟨st0, h0⟩ := Option.isSome_iff_exists.mp ((statusOf_isSome_iff h s).mpr hh)
  have hst : statusOf h (run (.awaitTimer d k) h s) = some (Status.awaitingLeaf d k) := by
    rw [run_awaitTimer]
    show statusOf h (setStatus h _ s) = _
    simp [h0]
  refine ⟨rfl, hst, ?_, ?_, ?_, ?_, ?_⟩
  · simp [run_awaitTimer, AsyncTimer.await_suspend, setStatus]
  · simp [run_awaitTimer, AsyncTimer.await_suspend, setStatus]
  · simp [run_awaitTimer, AsyncTimer.await_suspend, setStatus]
  · simp [run_awaitTimer, AsyncTimer.await_suspend, setStatus]
  · simp only [resume, hst]

theorem leaf_never_synchronous_witness :
    (0 : Nat) < (⟨[⟨.running, none⟩], ⟨[]⟩, [], [], [0]⟩ : State).frames.length ∧
    statusOf 0 (run (.awaitTimer (-5) .ret) 0 ⟨[⟨.running, none⟩], ⟨[]⟩, [], [], [0]⟩)
      = some (Status.awaitingLeaf (-5) .ret) :=
  ⟨by decide,
   (leaf_never_synchronous (-5) .ret 0 ⟨[⟨.running, none⟩], ⟨[]⟩, [], [], [0]⟩ (by decide)).2.1⟩

/-- C4 (eager child start). When the running coroutine `a` executes `co_await f()`, the new task
`b` (handle `s.frames.length`) is first resumed: in the intermediate state `sMid` reached
when that nested resumption returns, `b` stands at its first suspension point or is completed,
`a` is still running and `b` has no recorded parent. Only then, since `await_ready` is `false`,
`a` suspends in the await and is recorded as the parent of `b`. -/
theorem eager_child_start (child k : Body) (a : Handle) (s : State)
    (ha : statusOf a s = some Status.running) :
    ∃ sMid, sMid = run child s.frames.length
        (setStatus s.frames.length Status.running (create child s)) ∧
      resume s.frames.length (create child s) = some sMid ∧
      (∃ st, statusOf s.frames.length sMid = some st ∧ st.parked = true) ∧
      statusOf a sMid = some Status.running ∧
      parentOf s.frames.length sMid = none ∧
      AsyncVoidTask.await_ready = false ∧
      run (.awaitTask child k) a s =
        AsyncVoidTask.await_suspend s.frames.length a
          (setStatus a (Status.awaitingChild k) sMid) ∧
      statusOf a (run (.awaitTask child k) a s) = some (Status.awaitingChild k) ∧
      parentOf s.frames.length (run (.awaitTask child k) a s) = some a := by
  have hh : (a : Nat) < s.frames.length := (statusOf_isSome_iff a s).mp (by simp [ha])
  have hne : s.frames.length ≠ (a : Nat) := (Nat.ne_of_lt hh).symm
  have hlen1 : (setStatus s.frames.length Status.running (create child s)).frames.length
      = s.frames.length + 1 := by simp
  have hpark := run_parked child s.frames.length
      (setStatus s.frames.length Status.running (create child s)) (by omega)
  have hrun : statusOf a (run child s.frames.length
      (setStatus s.frames.length Status.running (create child s))) = some Status.running := by
    rw [statusOf_run_other _ _ _ _ (by rw [hlen1]; exact Nat.lt_succ_of_lt hh) (Nat.ne_of_lt hh),
      statusOf_setStatus, if_neg hne, statusOf_create_of_lt _ _ _ hh, ha]
  have hpar : parentOf s.frames.length (run child s.frames.length
      (setStatus s.frames.length Status.running (create child s))) = none := by
    rw [run_parentOf _ _ _ _ (by omega), parentOf_setStatus, parentOf_create_new]
  have hle := run_frames_length_le child s.frames.length
      (setStatus s.frames.length Status.running (create child s))
  refine ⟨_, rfl, ?_, hpark, hrun, hpar, rfl, run_awaitTask child k a s, ?_, ?_⟩
  · simp only [resume, statusOf_create_new]
  · rw [run_awaitTask, statusOf_await_suspend, statusOf_setStatus, if_pos rfl, hrun]; rfl
  · rw [run_awaitTask, parentOf_await_suspend, if_pos rfl]
    have hlt : s.frames.length < (setStatus a (Status.awaitingChild k) (run child s.frames.length
        (setStatus s.frames.length Status.running (create child s)))).frames.length := by
      rw [frames_length_setStatus]; omega
    rw [List.getElem?_eq_getElem hlt]; rfl

theorem eager_child_start_witness :
    statusOf 0 ⟨[⟨.running, none⟩], ⟨[]⟩, [], [], [0]⟩ = some Status.running ∧
    ∃ sMid, sMid = run inner 1 (setStatus 1 Status.running
        (create inner ⟨[⟨.running, none⟩], ⟨[]⟩, [], [], [0]⟩)) ∧
      resume 1 (create inner ⟨[⟨.running, none⟩], ⟨[]⟩, [], [], [0]⟩) = some sMid ∧
      (∃ st, statusOf 1 sMid = some st ∧ st.parked = true) ∧
      statusOf 0 sMid = some Status.running ∧
      parentOf 1 sMid = none ∧
      AsyncVoidTask.await_ready = false ∧
      run (.awaitTask inner .ret) 0 ⟨[⟨.running, none⟩], ⟨[]⟩, [], [], [0]⟩ =
        AsyncVoidTask.await_suspend 1 0 (setStatus 0 (Status.awaitingChild .ret) sMid) ∧
      statusOf 0 (run (.awaitTask inner .ret) 0 ⟨[⟨.running, none⟩], ⟨[]⟩, [], [], [0]⟩)
        = some (Status.awaitingChild .ret) ∧
      parentOf 1 (run (.awaitTask inner .ret) 0 ⟨[⟨.running, none⟩], ⟨[]⟩, [], [], [0]⟩)
        = some 0 :=
  ⟨rfl, eager_child_start inner .ret 0 ⟨[⟨.running, none⟩], ⟨[]⟩, [], [], [0]⟩ rfl⟩

/-! ## A child that completes without suspending -/

/-- C2 (single resume), evaluated on `A = awaitsEmptyChild`. After `executor.spawn(A())` and
one iteration of `block`, the child `B` has completed and `A` is recorded as its parent, but
the ready queue is empty and no timer thread is pending: `A` has not been spawned. The state
no longer changes: every further iteration of `block` is idle and no thread can finish, so
`A` is spawned zero times as a result of the completion of `B`. -/
theorem completed_child_never_spawns_parent :
    execute [.spawnRoot awaitsEmptyChild, .tick] State.init = some stuck ∧
    statusOf 1 stuck = some Status.completed ∧
    parentOf 1 stuck = some 0 ∧
    statusOf 0 stuck = some (Status.awaitingChild .ret) ∧
    stuck.executor.m_readyQueue.count 0 = 0 ∧
    (∀ n, Executor.block n stuck = some stuck) ∧
    (∀ i, timer_thread i stuck = none) := by
  refine ⟨by decide, rfl, rfl, rfl, rfl, ?_, fun i => rfl⟩
  intro n
  induction n with
  | zero => rfl
  | succ n ih =>
    show (Executor.blockIter stuck).bind (Executor.block n) = some stuck
    exact ih

end CoroRuntime
